import Mathlib

/- Shallow embedding of src/pdns/ixfrutils.cc (PowerDNS IXFR utilities).

   Modelling conventions:
   - Machine integers are Nat (for uint32_t values) or Int (for C int values),
     with explicit wraparound where a conversion overflows.
   - A DNSName is a sequence of labels; the root (apex) name, relative to the
     zone origin, is the empty list.
   - A null shared_ptr<DNSRecordContent> is Option.none; dereferencing a null
     pointer is an explicit fault outcome of the embedded function.
   - File-system and network effects are passed in explicitly: the directory
     listing as a list of entry names, the parsed reply as a structure, the
     success of fopen and rename as booleans.
   - The zone-text tokenizer (ZoneParserTNG) and the record container type
     (records_t, declared in ixfrutils.hh) are collaborators outside src/;
     where they matter they are modelled from the spec, as noted on each
     definition. -/

/-- A domain name as a sequence of labels. Relative to a zone origin, the
    apex (root) name is `[]`. -/
abbrev DNSName := List String

/-- The payload of a version (SOA) record: serial plus timing fields and the
    primary/contact names (dnsparser.hh, struct soatimes plus names). -/
structure SOAData where
  mname : DNSName
  rname : DNSName
  serial : Nat
  refresh : Nat
  retryIvl : Nat
  expire : Nat
  minimum : Nat
deriving DecidableEq

/-- A record content (DNSRecordContent). The version-record variant is
    distinguished, since the code narrows to SOARecordContent by
    dynamic_pointer_cast; every other content kind is carried by its textual
    zone representation. -/
inductive RContent where
  | soa (st : SOAData)
  | other (text : String)
deriving DecidableEq

/-- Whether the textual zone representation of a content is the empty string
    (DNSResourceRecord content emptiness, checked by loadZoneFromDisk for
    CNAME records). An SOA content always renders its seven fields, so it is
    never empty. -/
def contentTextEmpty : RContent → Bool
  | .soa _ => false
  | .other text => text == ""

/-- The QType codes used by ixfrutils.cc: QType::CNAME = 5, QType::SOA = 6,
    and (in concrete examples) QType::A = 1. Codes are kept as plain Nat. -/
abbrev QTypeSOA : Nat := 6

/-- QType::CNAME code. -/
abbrev QTypeCNAME : Nat := 5

/-- A DNSRecord as stored in a records_t: owner name (relative to the zone),
    type code, and content behind a possibly-null pointer. The ttl and class
    fields play no role in any of the claims (the writer emits neither) and
    are omitted. -/
structure DNSRecord where
  d_name : DNSName
  d_type : Nat
  d_content : Option RContent
deriving DecidableEq

/-- A default-constructed DNSRecord: empty name, type 0, null content. -/
def defaultDNSRecord : DNSRecord := ⟨[], 0, none⟩

/-- A DNSResourceRecord as produced by the zone-text tokenizer: absolute
    owner name, type code, and (textual) content. Modelled from the spec:
    the tokenizer is an out-of-scope collaborator that yields successive
    structured records from the file. -/
structure DNSResourceRecord where
  qname : DNSName
  qtype : Nat
  content : RContent
deriving DecidableEq

/- ------------------------------------------------------------------ -/
/- Decimal strings: std::to_string and atoi, as used by the code.      -/
/- ------------------------------------------------------------------ -/

/-- The decimal digit character for a value below ten. -/
def decChar : Nat → Char
  | 0 => '0'
  | 1 => '1'
  | 2 => '2'
  | 3 => '3'
  | 4 => '4'
  | 5 => '5'
  | 6 => '6'
  | 7 => '7'
  | 8 => '8'
  | _ => '9'

/-- Big-endian decimal digits of n, with explicit fuel (fuel above n is
    always sufficient). -/
def decDigitsAux : Nat → Nat → List Char
  | 0, _ => []
  | f + 1, n => if n < 10 then [decChar n] else decDigitsAux f (n / 10) ++ [decChar (n % 10)]

/-- std::to_string on an unsigned value: the canonical decimal rendering,
    no sign and no leading zeros (except the literal rendering of 0). -/
def toDecimalString (n : Nat) : String := ⟨decDigitsAux (n + 1) n⟩

/-- Whether a character is one of the C isspace characters skipped by atoi. -/
def isSpaceChar (c : Char) : Bool := decide (c.toNat = 32 ∨ (9 ≤ c.toNat ∧ c.toNat ≤ 13))

/-- Whether a character is a decimal digit. -/
def isDigitChar (c : Char) : Bool := decide (48 ≤ c.toNat ∧ c.toNat ≤ 57)

/-- The numeric value of a digit character. -/
def digitVal (c : Char) : Nat := c.toNat - 48

/-- Accumulate the leading run of decimal digits, stopping at the first
    non-digit character, as strtol/atoi do. -/
def parseDigits : List Char → Nat → Nat
  | [], acc => acc
  | c :: cs, acc => if isDigitChar c then parseDigits cs (10 * acc + digitVal c) else acc

/-- The sign-and-digits part of atoi, after whitespace has been skipped. -/
def atoiChars : List Char → Int
  | [] => 0
  | c :: cs =>
    if c = '-' then - (parseDigits cs 0 : Int)
    else if c = '+' then (parseDigits cs 0 : Int)
    else (parseDigits (c :: cs) 0 : Int)

/-- C atoi: skip leading whitespace, optional sign, leading digit run. The
    mathematical value is kept unbounded here; the conversion to uint32_t
    below reduces it mod 2^32, matching every flat two-complement platform. -/
def atoiInt (s : String) : Int := atoiChars (s.data.dropWhile isSpaceChar)

/-- The uint32_t value of atoi applied to a directory entry name:
    uint32_t num = atoi(entry->d_name). -/
def atoiU32 (s : String) : Nat := ((atoiInt s) % (2 ^ 32 : Int)).toNat

/- ------------------------------------------------------------------ -/
/- getSerialsFromDir (ixfrutils.cc lines 67-82)                        -/
/- ------------------------------------------------------------------ -/

/-- getSerialsFromDir, given the directory listing (the function throws
    before this loop when the directory cannot be opened; that IO failure is
    outside the claims about entry acceptance). For each entry:
    uint32_t num = atoi(name); if (std::to_string(num) == name)
    ret = max(num, ret). -/
def getSerialsFromDir (entries : List String) : Nat :=
  entries.foldl
    (fun ret name =>
      let num := atoiU32 name
      if toDecimalString num = name then max num ret else ret)
    0

/-- The acceptance test getSerialsFromDir applies to a directory entry:
    std::to_string(uint32_t(atoi(name))) == name. -/
def acceptName (name : String) : Bool := decide (toDecimalString (atoiU32 name) = name)

/- ------------------------------------------------------------------ -/
/- getSerialFromMaster (ixfrutils.cc lines 31-65)                      -/
/- ------------------------------------------------------------------ -/

/-- The remote peer, reduced to what the function observes of it: the
    rendering of master.toStringWithPort(). -/
structure ComboAddress where
  addrWithPort : String
deriving DecidableEq

/-- One record of the parsed reply answer section (MOADNSParser d_answers
    entry): its type code and its content, already narrowed by getRR, which
    yields none when the content cannot be interpreted as the requested
    record kind. -/
structure MdpAnswer where
  d_type : Nat
  d_content : Option RContent
deriving DecidableEq

/-- The parsed reply (MOADNSParser): header rcode and answer records. -/
structure MOAReply where
  rcode : Nat
  d_answers : List MdpAnswer
deriving DecidableEq

/-- Modelled from the spec: RCode::to_s names the reply status; its exact
    spelling is a collaborator detail, modelled as the decimal rendering of
    the code. -/
def rcodeToString (rc : Nat) : String := toDecimalString rc

/-- getRR<SOARecordContent> on an answer content: some SOAData exactly when
    the content is interpretable as a version record, none otherwise
    (including a null content). -/
def getRRSOA : Option RContent → Option SOAData
  | some (.soa st) => some st
  | _ => none

/-- The answer-section scan of getSerialFromMaster (lines 56-64): the first
    SOA-typed record whose content interprets as SOA stops the scan with its
    serial; uninterpretable SOA-typed records and other records are skipped;
    0 when the scan falls off the end. -/
def scanForSOA : List MdpAnswer → Nat
  | [] => 0
  | a :: rest =>
    if a.d_type = QTypeSOA then
      match getRRSOA a.d_content with
      | some st => st.serial
      | none => scanForSOA rest
    else scanForSOA rest

/-- getSerialFromMaster, given the parsed reply (the query build, TSIG
    signing and socket exchange are collaborators that produce it). A
    non-zero rcode throws; otherwise the answers are scanned. -/
def getSerialFromMaster (master : ComboAddress) (reply : MOAReply) : Except String Nat :=
  if reply.rcode ≠ 0 then
    .error ("Unable to retrieve SOA serial from master " ++ master.addrWithPort
            ++ ": " ++ rcodeToString reply.rcode)
  else
    .ok (scanForSOA reply.d_answers)

/-- Follows the spec wording for the scan result (spec 4.1): the serial of
    the first version-type record in answer order whose content is
    interpretable as a version record, or 0 if none exists. -/
def firstInterpretableVersionSerial (answers : List MdpAnswer) : Nat :=
  (answers.filterMap
    (fun a => if a.d_type = QTypeSOA then (getRRSOA a.d_content).map SOAData.serial else none)).headD 0

/- ------------------------------------------------------------------ -/
/- getSerialFromRecords (ixfrutils.cc lines 84-97)                     -/
/- ------------------------------------------------------------------ -/

/-- The lookup key used by getSerialFromRecords: owner name is the root
    (relative to the zone origin) and type is SOA. Modelled from the spec:
    records_t (declared in ixfrutils.hh, outside src/) is a multiset keyed
    by (name, type), and equal_range(tie(root, t)) selects exactly the
    records with this key. -/
def apexSOAKey (r : DNSRecord) : Bool := decide (r.d_name = [] ∧ r.d_type = QTypeSOA)

/-- The outcome of getSerialFromRecords: the returned serial together with
    the final value of the by-reference soaret parameter, or a fault when
    the code dereferences the result of a failed dynamic_pointer_cast. -/
inductive SerialOutcome where
  | fault
  | ok (serial : Nat) (soaret : DNSRecord)
deriving DecidableEq

/-- getSerialFromRecords: take the first record keyed (root, SOA); return 0
    leaving soaret untouched when there is none; otherwise
    soa = dynamic_pointer_cast<SOARecordContent>(content), soaret = record,
    return soa->d_st.serial. The dereference of soa is not guarded, so a
    content that is null or not an SOA faults. -/
def getSerialFromRecords (records : List DNSRecord) (soaret : DNSRecord) : SerialOutcome :=
  match records.filter apexSOAKey with
  | [] => .ok 0 soaret
  | r :: _ =>
    match r.d_content with
    | some (.soa st) => .ok st.serial r
    | _ => .fault

/- ------------------------------------------------------------------ -/
/- writeZoneToDisk (ixfrutils.cc lines 99-121)                         -/
/- ------------------------------------------------------------------ -/

/-- The environment of one writeZoneToDisk call: whether fopen of the
    .partial file succeeds and whether the final rename succeeds. -/
structure WriteEnv where
  openOk : Bool
  renameOk : Bool
deriving DecidableEq

/-- What a successful writeZoneToDisk call leaves behind: the final target
    path, the sequence of records rendered into the file (after the $ORIGIN
    line), and whether the rename onto the final path succeeded, i.e.
    whether a committed snapshot file exists at fname afterwards. -/
structure WriteOut where
  fname : String
  fileRecords : List DNSRecord
  committed : Bool
deriving DecidableEq

/-- The observable result of writeZoneToDisk: normal return, a thrown
    runtime_error, or a fault (null content dereference while rendering). -/
inductive WriteOutcome where
  | fault
  | ioError (msg : String)
  | ok (out : WriteOut)
deriving DecidableEq

/-- The int to which the uint32_t serial is assigned in writeZoneToDisk
    (int serial = getSerialFromRecords(...)): two-complement wraparound for
    values at or above 2^31. -/
def uint32ToInt (n : Nat) : Int := if n < 2 ^ 31 then (n : Int) else (n : Int) - 2 ^ 32

/-- std::to_string on an int: sign, then the decimal magnitude. -/
def intToDecimalString (i : Int) : String :=
  if i < 0 then "-" ++ toDecimalString i.natAbs else toDecimalString i.natAbs

/-- writeZoneToDisk. The serial comes from getSerialFromRecords (fault
    propagates); fname = directory + "/" + std::to_string(serial); a failed
    fopen of fname + ".partial" throws; the records rendered are the soa
    record, the full set, the soa record again; rendering dereferences every
    d_content (fault on null); the final rename result is not checked, so
    the call returns normally whether or not it succeeded. -/
def writeZoneToDisk (env : WriteEnv) (records : List DNSRecord) (zone : DNSName)
    (directory : String) : WriteOutcome :=
  match getSerialFromRecords records defaultDNSRecord with
  | .fault => .fault
  | .ok serial soa =>
    let fname := directory ++ "/" ++ intToDecimalString (uint32ToInt serial)
    if env.openOk = false then
      .ioError ("Unable to open file " ++ fname ++ ".partial for writing")
    else
      let seq := soa :: (records ++ [soa])
      if seq.all (fun r => r.d_content.isSome) then
        .ok ⟨fname, seq, env.renameOk⟩
      else
        .fault

/- ------------------------------------------------------------------ -/
/- loadZoneFromDisk (ixfrutils.cc lines 123-150)                       -/
/- ------------------------------------------------------------------ -/

/-- DNSName::makeRelative. Modelled from the spec: strip the zone suffix
    from a name below the zone. Only the stripping case is exercised by the
    loader on tokenizer output. -/
def makeRelative (n zone : DNSName) : DNSName :=
  if n.drop (n.length - zone.length) = zone then n.take (n.length - zone.length) else n

/-- The per-record transformation of the loader body (lines 132-137): an
    empty-content CNAME gets content "."; the name is made relative to the
    zone; DNSRecord(rr) wraps the content behind a (non-null) pointer. -/
def loadRecordTransform (zone : DNSName) (r : DNSResourceRecord) : DNSRecord :=
  let c := if r.qtype = QTypeCNAME ∧ contentTextEmpty r.content then RContent.other "." else r.content
  ⟨makeRelative r.qname zone, r.qtype, some c⟩

/-- The while loop of loadZoneFromDisk: records accumulates (insert unless
    the record is an SOA and one was already seen), seenSOA latches, and the
    last component tracks rr.qtype after the loop (0, the default QType,
    when no record was parsed). -/
def loadLoop (zone : DNSName) :
    List DNSResourceRecord → List DNSRecord → Bool → Nat → List DNSRecord × Bool × Nat
  | [], records, seenSOA, lastT => (records, seenSOA, lastT)
  | r :: rest, records, seenSOA, _lastT =>
    let records2 :=
      if r.qtype ≠ QTypeSOA ∨ seenSOA = false then records ++ [loadRecordTransform zone r]
      else records
    let seen2 := if r.qtype = QTypeSOA then true else seenSOA
    loadLoop zone rest records2 seen2 r.qtype

/-- loadZoneFromDisk, given the record sequence the tokenizer yields for the
    file (ZoneParserTNG is an out-of-scope collaborator). The records
    parameter is by-reference: the returned list is its final value. After
    the loop, unless the last parsed record was an SOA and an SOA was seen,
    the whole collection is cleared and a runtime_error is thrown. -/
def loadZoneFromDisk (records0 : List DNSRecord) (parsed : List DNSResourceRecord)
    (zone : DNSName) : Option String × List DNSRecord :=
  let res := loadLoop zone parsed records0 false 0
  if res.2.2 = QTypeSOA ∧ res.2.1 = true then (none, res.1)
  else (some "Zone not complete!", [])

/-- The qtype of the last record of a parse, with the default QType code for
    an empty parse: the value rr.qtype holds when the while loop ends. -/
def lastQType (parsed : List DNSResourceRecord) (d : Nat) : Nat :=
  match parsed with
  | [] => d
  | r :: rest => lastQType rest r.qtype

/-- Modelled from the spec: the round trip through the on-disk text and the
    out-of-scope tokenizer (spec sections 1 and 6). Rendering a record writes
    its relative name, type and content as one line; re-tokenizing the file
    under the zone origin yields the same record with the name made absolute
    again. A null content cannot be rendered (the writer faults on it first),
    so such records produce no line. -/
def tokenizeFile (zone : DNSName) (rs : List DNSRecord) : List DNSResourceRecord :=
  rs.filterMap
    (fun r =>
      match r.d_content with
      | some c => some ⟨r.d_name ++ zone, r.d_type, c⟩
      | none => none)

/- ------------------------------------------------------------------ -/
/- Concrete fixtures used by witnesses and counterexamples            -/
/- ------------------------------------------------------------------ -/

/-- A well-formed apex version record with serial 7. -/
def exSOARecord : DNSRecord :=
  ⟨[], QTypeSOA,
   some (.soa ⟨["ns1", "example", "com"], ["hostmaster", "example", "com"], 7, 3600, 600, 86400, 300⟩)⟩

/-- An ordinary address record below the apex. -/
def exARecord : DNSRecord := ⟨["www"], 1, some (.other "192.0.2.1")⟩

/- ------------------------------------------------------------------ -/
/- Helper lemmas: decimal rendering and atoi                           -/
/- ------------------------------------------------------------------ -/

theorem decChar_digit (n : Nat) : isDigitChar (decChar n) = true := by
  unfold decChar
  split <;> decide

theorem digitVal_decChar {n : Nat} (h : n < 10) : digitVal (decChar n) = n := by
  interval_cases n <;> decide

theorem decDigitsAux_all_digit : ∀ f n, ∀ c ∈ decDigitsAux f n, isDigitChar c = true := by
  intro f
  induction f with
  | zero => intro n c hc; simp [decDigitsAux] at hc
  | succ f ih =>
    intro n c hc
    unfold decDigitsAux at hc
    by_cases h : n < 10
    · simp [h] at hc
      subst hc
      exact decChar_digit n
    · simp [h, List.mem_append] at hc
      rcases hc with hc | hc
      · exact ih _ _ hc
      · subst hc
        exact decChar_digit _

theorem decDigitsAux_ne_nil (f n : Nat) (h : f ≠ 0) : decDigitsAux f n ≠ [] := by
  cases f with
  | zero => exact absurd rfl h
  | succ f =>
    unfold decDigitsAux
    by_cases h10 : n < 10
    · simp [h10]
    · simp [h10]

theorem parseDigits_append (A B : List Char) (acc : Nat)
    (hA : ∀ c ∈ A, isDigitChar c = true) :
    parseDigits (A ++ B) acc = parseDigits B (parseDigits A acc) := by
  induction A generalizing acc with
  | nil => simp [parseDigits]
  | cons a A ih =>
    have ha : isDigitChar a = true := hA a (List.mem_cons_self a A)
    simp only [List.cons_append, parseDigits, ha, if_true]
    exact ih _ (fun c hc => hA c (List.mem_cons_of_mem a hc))

theorem parseDigits_decDigitsAux : ∀ f n, n < f → parseDigits (decDigitsAux f n) 0 = n := by
  intro f
  induction f with
  | zero => intro n h; exact absurd h (Nat.not_lt_zero n)
  | succ f ih =>
    intro n h
    unfold decDigitsAux
    by_cases h10 : n < 10
    · rw [if_pos h10]
      simp [parseDigits, decChar_digit, digitVal_decChar h10]
    · have hdiv : n / 10 < f := by
        have h1 : n / 10 < n := Nat.div_lt_self (by omega) (by omega)
        omega
      rw [if_neg h10,
        parseDigits_append _ _ _ (fun c hc => decDigitsAux_all_digit f (n / 10) c hc),
        ih _ hdiv]
      have hm : n % 10 < 10 := Nat.mod_lt n (by omega)
      simp [parseDigits, decChar_digit, digitVal_decChar hm]
      omega

theorem not_space_of_digit {c : Char} (h : isDigitChar c = true) : isSpaceChar c = false := by
  have h48 : 48 ≤ c.toNat ∧ c.toNat ≤ 57 := by simpa [isDigitChar] using h
  simp only [isSpaceChar, decide_eq_false_iff_not]
  omega

theorem ne_dash_of_digit {c : Char} (h : isDigitChar c = true) : ¬(c = '-') := by
  intro hc
  subst hc
  exact absurd h (by decide)

theorem ne_plus_of_digit {c : Char} (h : isDigitChar c = true) : ¬(c = '+') := by
  intro hc
  subst hc
  exact absurd h (by decide)

theorem atoiInt_toDecimalString (n : Nat) : atoiInt (toDecimalString n) = (n : Int) := by
  have hne : decDigitsAux (n + 1) n ≠ [] := decDigitsAux_ne_nil (n + 1) n (Nat.succ_ne_zero n)
  obtain ⟨c, cs, hcons⟩ := List.exists_cons_of_ne_nil hne
  have hc : isDigitChar c = true := by
    apply decDigitsAux_all_digit (n + 1) n
    rw [hcons]
    exact List.mem_cons_self c cs
  have hparse : parseDigits (c :: cs) 0 = n := by
    rw [← hcons]
    exact parseDigits_decDigitsAux (n + 1) n (Nat.lt_succ_self n)
  have hdata : (toDecimalString n).data = c :: cs := by
    rw [show (toDecimalString n).data = decDigitsAux (n + 1) n from rfl, hcons]
  unfold atoiInt
  rw [hdata, List.dropWhile_cons, not_space_of_digit hc]
  simp only [Bool.false_eq_true, if_false]
  have hAC : atoiChars (c :: cs)
      = if c = '-' then - (parseDigits cs 0 : Int)
        else if c = '+' then (parseDigits cs 0 : Int)
        else (parseDigits (c :: cs) 0 : Int) := rfl
  rw [hAC, if_neg (ne_dash_of_digit hc), if_neg (ne_plus_of_digit hc), hparse]

theorem atoiU32_lt (s : String) : atoiU32 s < 2 ^ 32 := by
  unfold atoiU32
  have h32 : (2 : Int) ^ 32 = 4294967296 := by norm_num
  have hN : (2 : Nat) ^ 32 = 4294967296 := by norm_num
  rw [h32, hN]
  have h1 : 0 ≤ atoiInt s % 4294967296 := Int.emod_nonneg _ (by norm_num)
  have h2 : atoiInt s % 4294967296 < 4294967296 := Int.emod_lt_of_pos _ (by norm_num)
  omega

theorem atoiU32_toDecimalString {n : Nat} (h : n < 2 ^ 32) : atoiU32 (toDecimalString n) = n := by
  unfold atoiU32
  rw [atoiInt_toDecimalString]
  have h32 : (2 : Int) ^ 32 = 4294967296 := by norm_num
  have hN : (2 : Nat) ^ 32 = 4294967296 := by norm_num
  rw [h32]
  rw [hN] at h
  omega

theorem getSerialsFromDir_fold (l : List String) : ∀ a : Nat,
    l.foldl
      (fun ret name =>
        let num := atoiU32 name
        if toDecimalString num = name then max num ret else ret) a
      = ((l.filter acceptName).map atoiU32).foldl max a := by
  induction l with
  | nil => intro a; rfl
  | cons s l ih =>
    intro a
    by_cases hs : toDecimalString (atoiU32 s) = s
    · have hacc : acceptName s = true := by simp [acceptName, hs]
      simp only [List.foldl_cons, List.filter_cons_of_pos hacc, List.map_cons, if_pos hs]
      rw [ih (max (atoiU32 s) a), Nat.max_comm]
    · have hacc : ¬(acceptName s = true) := by simp [acceptName, hs]
      simp only [List.foldl_cons, List.filter_cons_of_neg hacc, if_neg hs]
      exact ih a

/-- C6 (amended): getSerialsFromDir accepts a directory entry exactly when its
    name is the canonical decimal rendering (no sign, no leading zeros, no
    trailing characters) of a non-negative integer below 2^32; it returns the
    maximum accepted candidate, or 0 when none exists; in particular it
    returns 0 on an empty directory and 10 on a directory with entries
    5, 10, abc, 3.partial and 007. -/
theorem claim_C6_highestSerial :
    (∀ name : String, acceptName name = true ↔ ∃ n, n < 2 ^ 32 ∧ name = toDecimalString n)
    ∧ (∀ entries : List String,
        getSerialsFromDir entries = ((entries.filter acceptName).map atoiU32).foldl max 0)
    ∧ getSerialsFromDir [] = 0
    ∧ getSerialsFromDir ["5", "10", "abc", "3.partial", "007"] = 10 := by
  refine ⟨?_, ?_, rfl, ?_⟩
  · intro name
    constructor
    · intro h
      have hs : toDecimalString (atoiU32 name) = name := by simpa [acceptName] using h
      exact ⟨atoiU32 name, atoiU32_lt name, hs.symm⟩
    · rintro ⟨n, hn, rfl⟩
      simp [acceptName, atoiU32_toDecimalString hn]
  · intro entries
    exact getSerialsFromDir_fold entries 0
  · decide

/-- C6 counterexample: the entry name 4294967296 is the canonical decimal
    rendering of a non-negative integer, yet getSerialsFromDir rejects it and
    returns 0 for a directory holding only that entry, where the claim as
    stated requires it to be accepted. -/
theorem claim_C6_counterexample :
    toDecimalString 4294967296 = "4294967296"
    ∧ acceptName "4294967296" = false
    ∧ getSerialsFromDir ["4294967296"] = 0 := by
  exact ⟨by decide, by decide, by decide⟩

theorem scanForSOA_eq_spec : ∀ answers : List MdpAnswer,
    scanForSOA answers = firstInterpretableVersionSerial answers := by
  intro answers
  induction answers with
  | nil => rfl
  | cons a rest ih =>
    unfold scanForSOA firstInterpretableVersionSerial
    by_cases ht : a.d_type = QTypeSOA
    · rw [if_pos ht]
      cases hc : getRRSOA a.d_content with
      | some st => simp [List.filterMap_cons, ht, hc]
      | none => simpa [List.filterMap_cons, ht, hc, firstInterpretableVersionSerial] using ih
    · rw [if_neg ht]
      simpa [List.filterMap_cons, ht, firstInterpretableVersionSerial] using ih

/-- C8: on a success reply (rcode 0), getSerialFromMaster returns the serial
    of the first version-type answer whose content interprets as a version
    record, skipping uninterpretable version-type answers; 0 when none
    exists, and that 0 is the same ok-value a legitimate zero serial yields
    (last two conjuncts). -/
theorem claim_C8_scan_first_interpretable :
    (∀ (master : ComboAddress) (answers : List MdpAnswer),
      getSerialFromMaster master ⟨0, answers⟩ = .ok (firstInterpretableVersionSerial answers))
    ∧ (∀ master : ComboAddress, getSerialFromMaster master ⟨0, []⟩ = .ok 0)
    ∧ (∀ master : ComboAddress,
        getSerialFromMaster master ⟨0, [⟨QTypeSOA, some (.soa ⟨[], [], 0, 0, 0, 0, 0⟩)⟩]⟩
          = .ok 0) := by
  refine ⟨?_, ?_, ?_⟩
  · intro master answers
    unfold getSerialFromMaster
    simp [scanForSOA_eq_spec]
  · intro master; rfl
  · intro master; rfl

/-- C9: a reply with non-zero status makes getSerialFromMaster fail with an
    error whose message includes the peer address and the rendered status,
    and no serial is returned. -/
theorem claim_C9_remote_error (master : ComboAddress) (reply : MOAReply)
    (h : reply.rcode ≠ 0) :
    getSerialFromMaster master reply
      = .error ("Unable to retrieve SOA serial from master " ++ master.addrWithPort
                ++ ": " ++ rcodeToString reply.rcode) := by
  unfold getSerialFromMaster
  rw [if_pos h]

/-- C9 witness: a concrete SERVFAIL-style reply (rcode 2) from a concrete
    peer produces exactly the error message carrying that address and
    status. -/
theorem claim_C9_witness :
    getSerialFromMaster ⟨"192.0.2.1:53"⟩ ⟨2, []⟩
      = .error ("Unable to retrieve SOA serial from master " ++ "192.0.2.1:53"
                ++ ": " ++ rcodeToString 2) :=
  claim_C9_remote_error ⟨"192.0.2.1:53"⟩ ⟨2, []⟩ (by decide)

/-- C5: code_bug evidence. A record keyed (root, SOA) whose content is not
    interpretable as a version record (or is a null pointer) makes
    getSerialFromRecords dereference the failed cast: the outcome is a
    fault, not an explicit not-found result as the claim requires. -/
theorem claim_C5_unguarded_narrowing :
    getSerialFromRecords [⟨[], QTypeSOA, some (.other "not a version record")⟩] defaultDNSRecord
      = .fault
    ∧ getSerialFromRecords [⟨[], QTypeSOA, none⟩] defaultDNSRecord = .fault := by
  exact ⟨by decide, by decide⟩

/-- C4: code_bug evidence. With no apex version record the serial lookup
    returns 0 with the default (null-content) record, and writeZoneToDisk
    proceeds: it faults rendering that null content instead of reporting an
    error. No committed snapshot is produced, but no error is reported
    either. -/
theorem claim_C4_write_without_soa :
    writeZoneToDisk ⟨true, true⟩ [] ["example", "com"] "dir" = .fault
    ∧ writeZoneToDisk ⟨true, true⟩ [⟨["www"], 1, some (.other "192.0.2.1")⟩]
        ["example", "com"] "dir" = .fault := by
  exact ⟨by decide, by decide⟩

/-- C3: code_bug evidence. The uint32 serial 2147483648 is assigned to an
    int in writeZoneToDisk, so the committed file name renders the wrapped
    negative value, not the canonical decimal rendering of the serial. -/
theorem claim_C3_serial_filename :
    writeZoneToDisk ⟨true, true⟩
        [⟨[], QTypeSOA, some (.soa ⟨[], [], 2147483648, 0, 0, 0, 0⟩)⟩]
        ["example", "com"] "dir"
      = .ok ⟨"dir/-2147483648",
             [⟨[], QTypeSOA, some (.soa ⟨[], [], 2147483648, 0, 0, 0, 0⟩)⟩,
              ⟨[], QTypeSOA, some (.soa ⟨[], [], 2147483648, 0, 0, 0, 0⟩)⟩,
              ⟨[], QTypeSOA, some (.soa ⟨[], [], 2147483648, 0, 0, 0, 0⟩)⟩], true⟩
    ∧ "dir/-2147483648" ≠ "dir/" ++ toDecimalString 2147483648 := by
  exact ⟨by decide, by decide⟩

/- ------------------------------------------------------------------ -/
/- Helper lemmas: writer and loader                                    -/
/- ------------------------------------------------------------------ -/

theorem makeRelative_append (a zone : DNSName) : makeRelative (a ++ zone) zone = a := by
  unfold makeRelative
  have hlen : (a ++ zone).length - zone.length = a.length := by
    simp [List.length_append]
  rw [hlen, List.drop_left]
  simp [List.take_left]

theorem transform_roundtrip (zone nm : DNSName) (tp : Nat) (c : RContent)
    (hcn : tp = QTypeCNAME → contentTextEmpty c = false) :
    loadRecordTransform zone ⟨nm ++ zone, tp, c⟩ = ⟨nm, tp, some c⟩ := by
  have hcond : ¬(tp = QTypeCNAME ∧ contentTextEmpty c = true) := by
    rintro ⟨h5, he⟩
    rw [hcn h5] at he
    cases he
  unfold loadRecordTransform
  dsimp only
  rw [if_neg hcond, makeRelative_append]

theorem tokenize_map_roundtrip (zone : DNSName) : ∀ l : List DNSRecord,
    (∀ r ∈ l, ∃ c, r.d_content = some c ∧ (r.d_type = QTypeCNAME → contentTextEmpty c = false)) →
    (tokenizeFile zone l).map (loadRecordTransform zone) = l := by
  intro l
  induction l with
  | nil => intro _; rfl
  | cons r rest ih =>
    intro h
    obtain ⟨c, hc, hcn⟩ := h r (List.mem_cons_self r rest)
    have hcons : tokenizeFile zone (r :: rest)
        = ⟨r.d_name ++ zone, r.d_type, c⟩ :: tokenizeFile zone rest := by
      simp [tokenizeFile, List.filterMap_cons, hc]
    rw [hcons, List.map_cons, ih (fun x hx => h x (List.mem_cons_of_mem r hx))]
    obtain ⟨nm, tp, ct⟩ := r
    dsimp only at hc
    subst hc
    rw [transform_roundtrip zone nm tp c hcn]

theorem tokenizeFile_filter (zone : DNSName) : ∀ l : List DNSRecord,
    (tokenizeFile zone l).filter (fun p => !decide (p.qtype = QTypeSOA))
      = tokenizeFile zone (l.filter (fun r => !decide (r.d_type = QTypeSOA))) := by
  intro l
  induction l with
  | nil => rfl
  | cons r rest ih =>
    cases hc : r.d_content with
    | none =>
      have h1 : tokenizeFile zone (r :: rest) = tokenizeFile zone rest := by
        simp [tokenizeFile, List.filterMap_cons, hc]
      by_cases ht : r.d_type = QTypeSOA
      · rw [h1, List.filter_cons_of_neg (by simp [ht]), ih]
      · rw [h1, List.filter_cons_of_pos (by simp [ht]), ih]
        have h2 : tokenizeFile zone (r :: rest.filter (fun r => !decide (r.d_type = QTypeSOA)))
            = tokenizeFile zone (rest.filter (fun r => !decide (r.d_type = QTypeSOA))) := by
          simp [tokenizeFile, List.filterMap_cons, hc]
        rw [h2]
    | some c =>
      have h1 : tokenizeFile zone (r :: rest)
          = ⟨r.d_name ++ zone, r.d_type, c⟩ :: tokenizeFile zone rest := by
        simp [tokenizeFile, List.filterMap_cons, hc]
      by_cases ht : r.d_type = QTypeSOA
      · rw [h1, List.filter_cons_of_neg (by simp [ht]), List.filter_cons_of_neg (by simp [ht]), ih]
      · rw [h1, List.filter_cons_of_pos (by simp [ht]), List.filter_cons_of_pos (by simp [ht])]
        have h2 : tokenizeFile zone (r :: rest.filter (fun r => !decide (r.d_type = QTypeSOA)))
            = ⟨r.d_name ++ zone, r.d_type, c⟩
                :: tokenizeFile zone (rest.filter (fun r => !decide (r.d_type = QTypeSOA))) := by
          simp [tokenizeFile, List.filterMap_cons, hc]
        rw [h2, ih]

theorem loadLoop_cons (zone : DNSName) (r : DNSResourceRecord) (rest : List DNSResourceRecord)
    (recs : List DNSRecord) (seen : Bool) (t : Nat) :
    loadLoop zone (r :: rest) recs seen t
      = loadLoop zone rest
          (if r.qtype ≠ QTypeSOA ∨ seen = false then recs ++ [loadRecordTransform zone r] else recs)
          (if r.qtype = QTypeSOA then true else seen) r.qtype := rfl

theorem loadLoop_lastT (zone : DNSName) : ∀ (P : List DNSResourceRecord)
    (recs : List DNSRecord) (seen : Bool) (t : Nat),
    (loadLoop zone P recs seen t).2.2 = lastQType P t := by
  intro P
  induction P with
  | nil => intro recs seen t; rfl
  | cons r rest ih =>
    intro recs seen t
    rw [loadLoop_cons]
    exact ih _ _ _

theorem lastQType_concat : ∀ (l : List DNSResourceRecord) (p : DNSResourceRecord) (d : Nat),
    lastQType (l ++ [p]) d = p.qtype := by
  intro l
  induction l with
  | nil => intro p d; rfl
  | cons r rest ih => intro p d; exact ih p r.qtype

theorem lastQType_ne : ∀ (P : List DNSResourceRecord) (d : Nat),
    (∀ r ∈ P, r.qtype ≠ QTypeSOA) → d ≠ QTypeSOA → lastQType P d ≠ QTypeSOA := by
  intro P
  induction P with
  | nil => intro d _ hd; exact hd
  | cons r rest ih =>
    intro d h _
    exact ih r.qtype (fun x hx => h x (List.mem_cons_of_mem r hx)) (h r (List.mem_cons_self r rest))

theorem loadLoop_seen_true (zone : DNSName) : ∀ (P : List DNSResourceRecord)
    (recs : List DNSRecord) (t : Nat),
    loadLoop zone P recs true t
      = (recs ++ (P.filter (fun p => !decide (p.qtype = QTypeSOA))).map (loadRecordTransform zone),
         true, lastQType P t) := by
  intro P
  induction P with
  | nil => intro recs t; simp [loadLoop, lastQType]
  | cons r rest ih =>
    intro recs t
    rw [loadLoop_cons]
    by_cases ht : r.qtype = QTypeSOA
    · rw [if_neg (by simp [ht]), if_pos ht, ih, List.filter_cons_of_neg (by simp [ht])]
      rfl
    · rw [if_pos (Or.inl ht), if_neg ht, ih,
        List.filter_cons_of_pos (by simp [ht]), List.map_cons, List.append_assoc]
      rfl

theorem loadZone_fail_eq (records0 : List DNSRecord) (parsed : List DNSResourceRecord)
    (zone : DNSName) (h : lastQType parsed 0 ≠ QTypeSOA) :
    loadZoneFromDisk records0 parsed zone = (some "Zone not complete!", []) := by
  have hcond : ¬((loadLoop zone parsed records0 false 0).2.2 = QTypeSOA
      ∧ (loadLoop zone parsed records0 false 0).2.1 = true) := by
    rintro ⟨h1, _⟩
    rw [loadLoop_lastT zone parsed records0 false 0] at h1
    exact h h1
  simp only [loadZoneFromDisk]
  rw [if_neg hcond]

theorem writeZoneToDisk_spec (o rn : Bool) (records : List DNSRecord) (zone : DNSName)
    (dir : String) (serial : Nat) (soa : DNSRecord)
    (hser : getSerialFromRecords records defaultDNSRecord = .ok serial soa)
    (hall : (soa :: (records ++ [soa])).all (fun r => r.d_content.isSome) = true) :
    writeZoneToDisk ⟨o, rn⟩ records zone dir
      = if o
        then .ok ⟨dir ++ "/" ++ intToDecimalString (uint32ToInt serial),
                  soa :: (records ++ [soa]), rn⟩
        else .ioError ("Unable to open file "
            ++ (dir ++ "/" ++ intToDecimalString (uint32ToInt serial))
            ++ ".partial for writing") := by
  unfold writeZoneToDisk
  rw [hser]
  cases o with
  | false => simp
  | true => simp [hall]

theorem intToDecimalString_small {n : Nat} (h : n < 2 ^ 31) :
    intToDecimalString (uint32ToInt n) = toDecimalString n := by
  unfold uint32ToInt intToDecimalString
  rw [if_pos h, if_neg (not_lt.mpr (Int.natCast_nonneg n))]
  simp [Int.natAbs_ofNat]

theorem filter_apex_of_unique : ∀ (records : List DNSRecord) (r0 : DNSRecord),
    records.filter (fun r => decide (r.d_type = QTypeSOA)) = [r0] →
    r0.d_name = [] →
    records.filter apexSOAKey = [r0] := by
  intro records
  induction records with
  | nil => intro r0 hf _; simp at hf
  | cons r rest ih =>
    intro r0 hf hname
    by_cases ht : r.d_type = QTypeSOA
    · rw [List.filter_cons_of_pos (by simp [ht])] at hf
      injection hf with h1 h2
      subst h1
      have hax : apexSOAKey r = true := by simp [apexSOAKey, ht, hname]
      rw [List.filter_cons_of_pos hax]
      have hnil : rest.filter apexSOAKey = [] := by
        rw [List.filter_eq_nil_iff]
        intro a ha hax2
        have h6 : a.d_type = QTypeSOA := by
          simp [apexSOAKey] at hax2
          exact hax2.2
        exact (List.filter_eq_nil_iff.mp h2) a ha (by simp [h6])
      rw [hnil]
    · rw [List.filter_cons_of_neg (by simp [ht])] at hf
      rw [List.filter_cons_of_neg (by simp [apexSOAKey, ht])]
      exact ih r0 hf hname

theorem getSerial_ok (records : List DNSRecord) (r0 : DNSRecord) (st : SOAData)
    (hapex : records.filter apexSOAKey = [r0])
    (hcontent : r0.d_content = some (.soa st)) :
    getSerialFromRecords records defaultDNSRecord = .ok st.serial r0 := by
  simp [getSerialFromRecords, hapex, hcontent]

/-- C2: when the parsed record sequence of a snapshot file does not end with
    a version (SOA) record, or contains no version record at all,
    loadZoneFromDisk fails with the format error and the returned record
    collection is empty: no partially accumulated records are visible. -/
theorem claim_C2_incomplete_load_fails (records0 : List DNSRecord)
    (parsed : List DNSResourceRecord) (zone : DNSName)
    (h : lastQType parsed 0 ≠ QTypeSOA ∨ ∀ r ∈ parsed, r.qtype ≠ QTypeSOA) :
    loadZoneFromDisk records0 parsed zone = (some "Zone not complete!", []) := by
  have hlast : lastQType parsed 0 ≠ QTypeSOA := by
    rcases h with h | h
    · exact h
    · exact lastQType_ne parsed 0 h (by decide)
  exact loadZone_fail_eq records0 parsed zone hlast

/-- C2 witness: a one-record file whose single record is an address record
    (so the sequence does not end with a version record) fails and returns
    the empty collection. -/
theorem claim_C2_witness :
    loadZoneFromDisk [] [⟨["www", "example", "com"], 1, .other "192.0.2.1"⟩] ["example", "com"]
      = (some "Zone not complete!", []) :=
  claim_C2_incomplete_load_fails [] [⟨["www", "example", "com"], 1, .other "192.0.2.1"⟩]
    ["example", "com"] (Or.inl (by decide))

/-- C10: the loader clears the whole by-reference collection on the failure
    path, so records the caller had placed in it before the call are erased
    along with the partial parse. -/
theorem claim_C10_clear_erases_caller_records (records0 : List DNSRecord)
    (parsed : List DNSResourceRecord) (zone : DNSName)
    (h0 : records0 ≠ [])
    (h : lastQType parsed 0 ≠ QTypeSOA) :
    (loadZoneFromDisk records0 parsed zone).2 = []
    ∧ (loadZoneFromDisk records0 parsed zone).1 = some "Zone not complete!" := by
  rw [loadZone_fail_eq records0 parsed zone h]
  exact ⟨rfl, rfl⟩

/-- C10 witness: a caller collection holding one record is fully erased when
    loading an empty (hence incomplete) file. -/
theorem claim_C10_witness :
    (loadZoneFromDisk [exARecord] [] ["example", "com"]).2 = []
    ∧ (loadZoneFromDisk [exARecord] [] ["example", "com"]).1 = some "Zone not complete!" :=
  claim_C10_clear_erases_caller_records [exARecord] [] ["example", "com"]
    (by decide) (by decide)

/-- C7 (amended): writeZoneToDisk fails with an IOError exactly when the
    temporary file cannot be opened; the result of the final rename is not
    checked, so a rename failure is silently ignored and the call still
    returns normally (with no committed snapshot at the final path). -/
theorem claim_C7_write_errors (o rn : Bool) (records : List DNSRecord) (zone : DNSName)
    (dir : String) (serial : Nat) (soa : DNSRecord)
    (hser : getSerialFromRecords records defaultDNSRecord = .ok serial soa)
    (hall : (soa :: (records ++ [soa])).all (fun r => r.d_content.isSome) = true) :
    (o = false →
      writeZoneToDisk ⟨o, rn⟩ records zone dir
        = .ioError ("Unable to open file "
            ++ (dir ++ "/" ++ intToDecimalString (uint32ToInt serial))
            ++ ".partial for writing"))
    ∧ (o = true →
      writeZoneToDisk ⟨o, rn⟩ records zone dir
        = .ok ⟨dir ++ "/" ++ intToDecimalString (uint32ToInt serial),
               soa :: (records ++ [soa]), rn⟩) := by
  constructor
  · intro ho
    subst ho
    rw [writeZoneToDisk_spec false rn records zone dir serial soa hser hall]
    simp
  · intro ho
    subst ho
    rw [writeZoneToDisk_spec true rn records zone dir serial soa hser hall]
    simp

/-- C7 counterexample: with a failing rename (renameOk = false) the call
    still returns normally with no committed file, where the claim as
    stated requires an IOError. -/
theorem claim_C7_counterexample :
    writeZoneToDisk ⟨true, false⟩ [exSOARecord] ["example", "com"] "dir"
      = .ok ⟨"dir/7", [exSOARecord, exSOARecord, exSOARecord], false⟩ := by
  decide

/-- C7 witness: the amended claim instantiated at a concrete well-formed
    record set with serial 7. -/
theorem claim_C7_witness :
    ((true : Bool) = false →
      writeZoneToDisk ⟨true, true⟩ [exSOARecord] ["example", "com"] "dir"
        = .ioError ("Unable to open file "
            ++ ("dir" ++ "/" ++ intToDecimalString (uint32ToInt 7))
            ++ ".partial for writing"))
    ∧ ((true : Bool) = true →
      writeZoneToDisk ⟨true, true⟩ [exSOARecord] ["example", "com"] "dir"
        = .ok ⟨"dir" ++ "/" ++ intToDecimalString (uint32ToInt 7),
               exSOARecord :: ([exSOARecord] ++ [exSOARecord]), true⟩) :=
  claim_C7_write_errors true true [exSOARecord] ["example", "com"] "dir" 7 exSOARecord
    (by decide) (by decide)

/-- C1 (amended): for a RecordSet whose single version record sits at the
    apex, carries interpretable SOA content with serial below 2^31 (above
    that the int conversion in the writer changes the file name, see the
    counterexample), and whose records all have renderable content, writing
    the set and re-loading the written file yields the same multiset: the
    writer commits dir/serial with the record sequence soa, set, soa, and
    the loader returns a permutation of the original set. -/
theorem claim_C1_snapshot_roundtrip (records : List DNSRecord) (r0 : DNSRecord) (st : SOAData)
    (zone : DNSName) (dir : String)
    (hfilter : records.filter (fun r => decide (r.d_type = QTypeSOA)) = [r0])
    (hname : r0.d_name = [])
    (hcontent : r0.d_content = some (.soa st))
    (hserial : st.serial < 2 ^ 31)
    (hwf : ∀ r ∈ records, ∃ c, r.d_content = some c
            ∧ (r.d_type = QTypeCNAME → contentTextEmpty c = false)) :
    writeZoneToDisk ⟨true, true⟩ records zone dir
      = .ok ⟨dir ++ "/" ++ toDecimalString st.serial, r0 :: (records ++ [r0]), true⟩
    ∧ loadZoneFromDisk [] (tokenizeFile zone (r0 :: (records ++ [r0]))) zone
      = (none, r0 :: records.filter (fun r => !decide (r.d_type = QTypeSOA)))
    ∧ List.Perm (r0 :: records.filter (fun r => !decide (r.d_type = QTypeSOA))) records := by
  have hmemf : r0 ∈ records.filter (fun r => decide (r.d_type = QTypeSOA)) := by
    rw [hfilter]
    exact List.mem_cons_self r0 []
  have ht0 : r0.d_type = QTypeSOA := by
    have := (List.mem_filter.mp hmemf).2
    simpa using this
  have hapex : records.filter apexSOAKey = [r0] := filter_apex_of_unique records r0 hfilter hname
  have hser : getSerialFromRecords records defaultDNSRecord = .ok st.serial r0 :=
    getSerial_ok records r0 st hapex hcontent
  have hall : (r0 :: (records ++ [r0])).all (fun r => r.d_content.isSome) = true := by
    rw [List.all_eq_true]
    intro r hr
    rcases List.mem_cons.mp hr with h | h
    · subst h
      simp [hcontent]
    · rcases List.mem_append.mp h with h | h
      · obtain ⟨c, hc, _⟩ := hwf r h
        simp [hc]
      · have hh := List.mem_singleton.mp h
        subst hh
        simp [hcontent]
  refine ⟨?_, ?_, ?_⟩
  · rw [writeZoneToDisk_spec true true records zone dir st.serial r0 hser hall,
      if_pos rfl, intToDecimalString_small hserial]
  · obtain ⟨nm0, tp0, ct0⟩ := r0
    dsimp only at hname hcontent ht0
    subst hname
    subst hcontent
    subst ht0
    have htok : tokenizeFile zone
          (⟨[], QTypeSOA, some (RContent.soa st)⟩
            :: (records ++ [⟨[], QTypeSOA, some (RContent.soa st)⟩]))
        = ⟨zone, QTypeSOA, RContent.soa st⟩
            :: (tokenizeFile zone records ++ [⟨zone, QTypeSOA, RContent.soa st⟩]) := by
      simp [tokenizeFile, List.filterMap_cons, List.filterMap_append]
    rw [htok]
    simp only [loadZoneFromDisk]
    rw [loadLoop_cons, if_pos (Or.inr rfl), if_pos rfl, loadLoop_seen_true, lastQType_concat]
    have htr0 : loadRecordTransform zone ⟨zone, QTypeSOA, RContent.soa st⟩
        = ⟨[], QTypeSOA, some (RContent.soa st)⟩ :=
      transform_roundtrip zone [] QTypeSOA (RContent.soa st) (fun h5 => absurd h5 (by decide))
    have hfil : ((tokenizeFile zone records
            ++ [(⟨zone, QTypeSOA, RContent.soa st⟩ : DNSResourceRecord)]).filter
          (fun p => !decide (p.qtype = QTypeSOA)))
        = tokenizeFile zone (records.filter (fun r => !decide (r.d_type = QTypeSOA))) := by
      rw [List.filter_append]
      have h1 : List.filter (fun p => !decide (p.qtype = QTypeSOA))
          [(⟨zone, QTypeSOA, RContent.soa st⟩ : DNSResourceRecord)] = [] := by
        rw [List.filter_cons_of_neg (by simp)]
        rfl
      rw [h1, List.append_nil, tokenizeFile_filter]
    have hmap := tokenize_map_roundtrip zone
      (records.filter (fun r => !decide (r.d_type = QTypeSOA)))
      (fun r hr => hwf r (List.mem_of_mem_filter hr))
    rw [hfil, hmap, htr0, if_pos ⟨rfl, rfl⟩]
    rfl
  · have hperm := List.filter_append_perm (fun r => decide (r.d_type = QTypeSOA)) records
    rw [hfilter] at hperm
    simpa using hperm

/-- C1 counterexample: for the apex serial 2147483648 the writer commits a
    file named -2147483648 inside the directory, not one named 2147483648,
    so loading the file named by the decimal serial cannot return the
    written RecordSet: the claim as stated fails for serials at or above
    2^31. -/
theorem claim_C1_counterexample :
    writeZoneToDisk ⟨true, true⟩
        [⟨[], QTypeSOA, some (.soa ⟨[], [], 2147483648, 1, 1, 1, 1⟩)⟩] ["example"] "d"
      = .ok ⟨"d/-2147483648",
             [⟨[], QTypeSOA, some (.soa ⟨[], [], 2147483648, 1, 1, 1, 1⟩)⟩,
              ⟨[], QTypeSOA, some (.soa ⟨[], [], 2147483648, 1, 1, 1, 1⟩)⟩,
              ⟨[], QTypeSOA, some (.soa ⟨[], [], 2147483648, 1, 1, 1, 1⟩)⟩], true⟩
    ∧ "d/-2147483648" ≠ "d/" ++ toDecimalString 2147483648 := by
  exact ⟨by decide, by decide⟩

/-- C1 witness: the amended round trip instantiated on a concrete two-record
    zone with apex serial 7. -/
theorem claim_C1_witness :
    writeZoneToDisk ⟨true, true⟩ [exSOARecord, exARecord] ["example", "com"] "snapshots"
      = .ok ⟨"snapshots" ++ "/" ++ toDecimalString 7,
             exSOARecord :: ([exSOARecord, exARecord] ++ [exSOARecord]), true⟩
    ∧ loadZoneFromDisk [] (tokenizeFile ["example", "com"]
          (exSOARecord :: ([exSOARecord, exARecord] ++ [exSOARecord]))) ["example", "com"]
      = (none, exSOARecord
          :: [exSOARecord, exARecord].filter (fun r => !decide (r.d_type = QTypeSOA)))
    ∧ List.Perm
        (exSOARecord :: [exSOARecord, exARecord].filter (fun r => !decide (r.d_type = QTypeSOA)))
        [exSOARecord, exARecord] :=
  claim_C1_snapshot_roundtrip [exSOARecord, exARecord] exSOARecord
    ⟨["ns1", "example", "com"], ["hostmaster", "example", "com"], 7, 3600, 600, 86400, 300⟩
    ["example", "com"] "snapshots" (by decide) rfl rfl (by decide)
    (by
      intro r hr
      rcases List.mem_cons.mp hr with h | h
      · subst h
        exact ⟨RContent.soa
            ⟨["ns1", "example", "com"], ["hostmaster", "example", "com"], 7, 3600, 600, 86400, 300⟩,
          rfl, fun h5 => absurd h5 (by decide)⟩
      · have hh := List.mem_singleton.mp h
        subst hh
        exact ⟨RContent.other "192.0.2.1", rfl, fun h5 => absurd h5 (by decide)⟩)
